import Mathlib

/-!
Verification of the willow object-graph codec

Shallow embedding, in Lean 4, of the parts of the `willow` Python package
(dataclass serialization / deserialization library) that the specification
claims talk about.  Python values are modelled by the inductive `PVal`
(the codec-neutral tree of scalars, ordered sequences, and ordered
string-keyed mappings); Python exceptions by the inductive `PyErr`;
fallible Python functions by `Except PyErr`.  Association lists model
Python `dict`s (insertion order preserved, lookup = first match, which
agrees with `dict` since keys are unique at every insertion site).

Model scope (documented per definition): record-typed *values* inside
other values, enumeration / datetime / UUID target types and the
corresponding `TYPE_TRANSFORMERS` parsers are not modelled; all claims
settled here are insensitive to these (they are decided by code paths
that never reach those branches).
-/

/-- Python attribute values flowing through the codec: the codec-neutral
tree of `None`, integers, strings, booleans, ordered lists, and ordered
string-keyed dicts. -/
inductive PVal where
  | vnone : PVal
  | vint : Int → PVal
  | vstr : String → PVal
  | vbool : Bool → PVal
  | vlist : List PVal → PVal
  | vdict : List (String × PVal) → PVal

mutual

/-- Python `==` on the modelled values.  Deviations from CPython, none of
which any settled claim depends on: cross-type numeric equalities such as
`1 == True` are not modelled (the only use of `==` on values reached by
the claims compares like-shaped values), and dict comparison is in
insertion order (CPython compares dicts as unordered key/value sets). -/
def PVal.beq : PVal → PVal → Bool
  | .vnone, .vnone => true
  | .vint a, .vint b => a == b
  | .vstr a, .vstr b => a == b
  | .vbool a, .vbool b => a == b
  | .vlist a, .vlist b => PVal.beqList a b
  | .vdict a, .vdict b => PVal.beqEntries a b
  | _, _ => false

/-- Elementwise `==` on lists of values. -/
def PVal.beqList : List PVal → List PVal → Bool
  | [], [] => true
  | x :: xs, y :: ys => PVal.beq x y && PVal.beqList xs ys
  | _, _ => false

/-- Entrywise `==` on dict entry lists. -/
def PVal.beqEntries : List (String × PVal) → List (String × PVal) → Bool
  | [], [] => true
  | (k, v) :: xs, (k', v') :: ys => k == k' && PVal.beq v v' && PVal.beqEntries xs ys
  | _, _ => false

end

/-- Python exceptions that the embedded code can raise.  `deserializeError`,
`inclusionError` and `validationError` are the willow domain errors (all
subclasses of `WillowError`, see `src/willow/errors/`); `attributeError`,
`typeError`, `keyError` and `valueError` are native Python exceptions. -/
inductive PyErr where
  | attributeError : String → PyErr
  | typeError : String → PyErr
  | keyError : String → PyErr
  | valueError : String → PyErr
  | deserializeError : String → String → PyErr
  | inclusionError : String → PyErr
  | validationError : String → PyErr
  deriving DecidableEq

/-- Holds `True` exactly on the willow domain error `DeserializeError`. -/
def PyErr.isDeserializeError : PyErr → Bool
  | .deserializeError _ _ => true
  | _ => false

/-- Holds `True` exactly on the native `KeyError`. -/
def PyErr.isKeyError : PyErr → Bool
  | .keyError _ => true
  | _ => false

/-- First-match lookup in an association list; models `d[k]` / `d.get(k)` /
`k in d` on a Python `dict` (keys are unique at every site where these
lists are built, so first-match agrees with `dict`). -/
def dlookup (data : List (String × PVal)) (k : String) : Option PVal :=
  match data with
  | [] => none
  | (k', v) :: rest => if k' = k then some v else dlookup rest k

/-- Models the Python membership test `k in d`. -/
def containsKey (data : List (String × PVal)) (k : String) : Bool :=
  (dlookup data k).isSome


/-!
The `Include` enum (`src/willow/enums/_include.py`)

```python
class Include(Enum):
    NON_NULL = auto()
    NON_DEFAULT = auto()
    ALWAYS = auto()
```

These three are the only members the enum declares.
-/

/-- The inclusion-policy enum, with exactly the members declared in
`src/willow/enums/_include.py`. -/
inductive Include where
  | NON_NULL : Include
  | NON_DEFAULT : Include
  | ALWAYS : Include
  deriving DecidableEq

/-- Python attribute access `Include.<name>` on the enum class: `some m`
for the three declared members, `none` (an `AttributeError` at the access
site) for any other name.  `include_member` accesses the names
`NON_NONE` and `NON_EMPTY`, which are not declared. -/
def includeAttr : String → Option Include
  | "NON_NULL" => some Include.NON_NULL
  | "NON_DEFAULT" => some Include.NON_DEFAULT
  | "ALWAYS" => some Include.ALWAYS
  | _ => none

/-- Evaluating the expression `Include.<name>` raises `AttributeError`
when the member does not exist (Python `EnumType.__getattr__`). -/
def includeAttrE (name : String) : Except PyErr Include :=
  match includeAttr name with
  | some m => Except.ok m
  | none => Except.error (PyErr.attributeError name)

/-!
Fields, properties, members

A willow member is a `dataclasses.Field` or a `property`
(`willow/types.py`: `Member = Field | property`).  The willow metadata
bag (`field.metadata["willow"]` resp. `property.__willow__`, read through
`willow_metadata` in `src/willow/_utils/_willow_metadata.py`) carries the
keys used by the engines: `ignore`, `serializer`, `deserializer`,
`json.key`, `json.aliases`.  The embedding stores the resolved metadata
values directly on the descriptor; `willow_metadata`'s dotted-path
traversal with default fallback is reflected in the `Option` types (a
`none` is exactly "path absent, default returned").
-/

/-- Target-type descriptors for deserialization (the resolved
`get_type_hints` entry for a field).  `listT none` / `dictT none` are the
bare `list` / `dict` annotations; `listT (some t)` / `dictT (some kv)`
are the parameterized generics `list[t]` / `dict[k, v]`; `optionalT t`
is the union `t | None` (`types.UnionType`).  Enumeration, datetime and
UUID target types are outside the model (no settled claim reaches them). -/
inductive TypeDesc where
  | anyT : TypeDesc
  | strT : TypeDesc
  | intT : TypeDesc
  | boolT : TypeDesc
  | optionalT : TypeDesc → TypeDesc
  | listT : Option TypeDesc → TypeDesc
  | dictT : Option (TypeDesc × TypeDesc) → TypeDesc

/-- A `dataclasses.Field` as the willow engines see it: name, resolved
type hint, `default` / `default_factory` (`none` models
`dataclasses.MISSING`; a factory may raise), and the willow metadata
values read by the engines. -/
structure FieldD where
  name : String
  type : TypeDesc := TypeDesc.anyT
  default : Option PVal := none
  defaultFactory : Option (Unit → Except PyErr PVal) := none
  ignore : Bool := false
  serializer : Option (PVal → PVal) := none
  deserializer : Option (PVal → Except PyErr PVal) := none
  jsonKey : Option String := none
  aliases : List String := []

/-- A `property` descriptor with its `__willow__` metadata (only the
keys the serialize direction reads). -/
structure PropD where
  ignore : Bool := false
  serializer : Option (PVal → PVal) := none

/-- Models `Member = Field | property`. -/
inductive MemberD where
  | fieldM : FieldD → MemberD
  | propM : PropD → MemberD

/-- Models `willow_metadata(member, "ignore", False)`. -/
def MemberD.ignore : MemberD → Bool
  | .fieldM f => f.ignore
  | .propM p => p.ignore

/-- Models `willow_metadata(member).get("serializer")`. -/
def MemberD.serializer : MemberD → Option (PVal → PVal)
  | .fieldM f => f.serializer
  | .propM p => p.serializer

/-- An instance as the serialize direction sees it: the ordered
name → member mapping returned by `obj._members(...)` (fields in
declaration order, then the requested properties), and the current
attribute values (`getattr`). -/
structure PyObj where
  members : List (String × MemberD)
  vals : List (String × PVal)

/-- Models `getattr(obj, name, None)` (used by `to_dict` and `asdict`). -/
def PyObj.getattrOrNone (obj : PyObj) (name : String) : PVal :=
  (dlookup obj.vals name).getD PVal.vnone

/-- Models `getattr(obj, name)` without default: raises `AttributeError` when
the attribute is absent (used by `include_member`'s NON_DEFAULT branch). -/
def PyObj.getattrE (obj : PyObj) (name : String) : Except PyErr PVal :=
  match dlookup obj.vals name with
  | some v => Except.ok v
  | none => Except.error (PyErr.attributeError name)

/-- The name a `Field` member carries (`member.name`); accessing `.name`
on a `property` has no meaning in `include_member`'s NON_DEFAULT branch,
but that branch is only reached for fields there. -/
def memberName (fallback : String) (m : MemberD) : String :=
  match m with
  | .fieldM f => f.name
  | .propM _ => fallback

/-!
Inclusion engine (`src/willow/_utils/_include_member.py`)

```python
def include_member(obj, member, value, include):
    if include is Include.ALWAYS:
        return True
    if include is Include.NON_NONE:
        return value is not None
    if include is Include.NON_EMPTY:
        if value is None:
            return False
        if isinstance(value, (str, bytes, list, tuple, set, dict)):
            return bool(value)
        return True
    if include is Include.NON_DEFAULT:
        if isinstance(member, property):
            raise InclusionError(
                "Cannot use Include.NON_DEFAULT with include_properties=True"
            )
        return value == getattr(obj, member.name)

    raise InclusionError(f"Unhandled Include rule: {include}")
```

Each `Include.NON_NONE` / `Include.NON_EMPTY` expression is an attribute
access on the enum class, re-evaluated at every call; since the enum
declares neither name, the access raises `AttributeError` before the
comparison happens.  The embedding performs the same access through
`includeAttrE`.
-/

/-- Models `value is None`. -/
def PVal.isNone : PVal → Bool
  | .vnone => true
  | _ => false

/-- Models `bool(value)` truthiness, used by the (unreachable) NON_EMPTY branch
and by the `bool` constructor cast. -/
def pyTruthy : PVal → Bool
  | .vnone => false
  | .vint n => n != 0
  | .vstr s => s != ""
  | .vbool b => b
  | .vlist xs => !xs.isEmpty
  | .vdict es => !es.isEmpty

/-- Direct translation of `include_member` (see the module comment above
for the source).  The name `mname` is `member.name` for a field member. -/
def include_member (obj : PyObj) (mname : String) (member : MemberD) (value : PVal)
    (inc : Include) : Except PyErr Bool := do
  if inc = Include.ALWAYS then
    return true
  let nonNone ← includeAttrE "NON_NONE"
  if inc = nonNone then
    return !value.isNone
  let nonEmpty ← includeAttrE "NON_EMPTY"
  if inc = nonEmpty then
    if value.isNone then
      return false
    match value with
    | .vstr _ | .vlist _ | .vdict _ => return pyTruthy value
    | _ => return true
  if inc = Include.NON_DEFAULT then
    match member with
    | .propM _ =>
      throw (PyErr.inclusionError
        "Cannot use Include.NON_DEFAULT with include_properties=True")
    | .fieldM _ =>
      let current ← obj.getattrE (memberName mname member)
      return PVal.beq value current
  throw (PyErr.inclusionError "Unhandled Include rule")

/-!
Capture engine (`_capture_member.py`, `_capture_obj.py`, `_serialize_obj.py`)

`capture_member` runs an explicit work-stack loop; on every iteration it
invokes the capture callable as

```python
captured_value = capture_fn(
    current_member,
    current_value,
    stack,
    dict_factory=dict_fac,
    list_factory=list_fac,
)
```

i.e. with **three positional arguments** and the **keyword arguments**
`dict_factory` and `list_factory`.  The two candidate callables are

```python
def capture_obj(member, value, stack, *, dict_factory=dict, list_factory=list): ...
def serialize_obj(obj, stack): ...
```

`capture_obj` accepts that call; `serialize_obj` declares two positional
parameters and no keyword parameters, so the call raises `TypeError`
before `serialize_obj`'s body runs.  `to_dict` passes
`capture_fn=serialize_obj`; `asdict` passes no `capture_fn`, so
`capture_member` falls back to `capture_obj`.
-/

/-- The two callables the source passes to `capture_member` as `capture_fn`. -/
inductive CaptureFn where
  | captureObjFn : CaptureFn
  | serializeObjFn : CaptureFn
  deriving DecidableEq

/-- Number of positional parameters each callable declares. -/
def CaptureFn.posParams : CaptureFn → Nat
  | .captureObjFn => 3
  | .serializeObjFn => 2

/-- Keyword-only parameters each callable declares. -/
def CaptureFn.kwParams : CaptureFn → List String
  | .captureObjFn => ["dict_factory", "list_factory"]
  | .serializeObjFn => []

/-- Whether the call `capture_fn(member, value, stack, dict_factory=..,
list_factory=..)` made inside `capture_member`'s loop binds: it passes 3
positional arguments and the keywords `dict_factory`, `list_factory`. -/
def captureCallBinds (fn : CaptureFn) : Bool :=
  fn.posParams == 3
    && ["dict_factory", "list_factory"].all (fun k => fn.kwParams.contains k)

mutual

/-- Result of `capture_obj` fully run through `capture_member`'s stack
loop on a value: nested dataclass instances do not occur inside `PVal`
(model scope); lists and tuples are rebuilt element-by-element in order
(elements are pushed reversed, so stack pops restore source order);
dict entries are pushed in source order and popped in reverse, so every
rebuilt dict has its entry order reversed; anything else is returned
unchanged. -/
def captureVal : PVal → PVal
  | .vlist xs => .vlist (captureValList xs)
  | .vdict es => .vdict (captureValEntries es).reverse
  | v => v

/-- Elementwise capture of a list's items. -/
def captureValList : List PVal → List PVal
  | [] => []
  | x :: xs => captureVal x :: captureValList xs

/-- Entrywise capture of a dict's entries (in source order; the caller
reverses, reflecting the stack pop order). -/
def captureValEntries : List (String × PVal) → List (String × PVal)
  | [] => []
  | (k, v) :: es => (k, captureVal v) :: captureValEntries es

end

/-- Models `capture_member(member, value, ..., capture_fn=fn)`
(`src/willow/_utils/_capture_member.py`): the first loop iteration pops
the initial frame and calls `fn` as shown in the module comment; if the
call cannot bind (the `serialize_obj` case) it raises `TypeError`,
otherwise the loop computes `capture_obj`'s traversal. -/
def capture_member (value : PVal) (fn : CaptureFn) : Except PyErr PVal :=
  if captureCallBinds fn then
    Except.ok (captureVal value)
  else
    Except.error (PyErr.typeError
      "serialize_obj takes 2 positional arguments but 3 were given")

/-!
Serialize orchestration (`src/willow/_utils/_to_dict.py`)

```python
def to_dict(obj, include, *, include_properties=True, include_private=False,
            dict_factory=dict, list_factory=list):
    data = dict_factory()
    members = obj._members(include_properties=..., include_private=...)
    for name, member in members.items():
        metadata = willow_metadata(member)
        if metadata.get("ignore", False):
            continue
        value = getattr(obj, name, None)
        if not include_member(obj, member, value, include):
            continue
        serializer = metadata.get("serializer")
        if serializer:
            data[name] = serializer(value)
        else:
            data[name] = capture_member(member, value, dict_factory=...,
                                        list_factory=..., capture_fn=serialize_obj)
    return data
```

Note `capture_fn=serialize_obj` on the last call.
-/

/-- The per-member loop of `to_dict`, over the remaining `members.items()`. -/
def toDictGo (obj : PyObj) (inc : Include) :
    List (String × MemberD) → Except PyErr (List (String × PVal))
  | [] => Except.ok []
  | (name, member) :: rest =>
    if member.ignore then
      toDictGo obj inc rest
    else do
      let value := obj.getattrOrNone name
      let keep ← include_member obj name member value inc
      if keep then
        let captured ←
          match member.serializer with
          | some s => Except.ok (s value)
          | none => capture_member value CaptureFn.serializeObjFn
        let restData ← toDictGo obj inc rest
        Except.ok ((name, captured) :: restData)
      else
        toDictGo obj inc rest

/-- Models `to_dict(obj, include)` with the default keyword arguments. -/
def to_dict (obj : PyObj) (inc : Include) : Except PyErr (List (String × PVal)) :=
  toDictGo obj inc obj.members

/-- Models `asdict(obj, ...)` (`src/willow/_utils/_asdict.py`): same member walk
but with no inclusion filtering, no ignore check, no serializer override,
and `capture_member` called without `capture_fn` (so `capture_obj` runs).
It never raises on modelled values. -/
def asdict_util (obj : PyObj) : List (String × PVal) :=
  obj.members.map (fun (nm : String × MemberD) =>
    (nm.1, captureVal (obj.getattrOrNone nm.1)))

/-!
Coercion engine (`_deserialize_value.py`, `_get_type.py`)

```python
def deserialize_value(value, expected_type):
    if isinstance(value, expected_type):
        return value
    origin = get_origin(expected_type)
    args = get_args(expected_type)
    if origin is Union and type(None) in args and value is None:
        return None
    return _deserialize(value, expected_type, origin)
```

CPython semantics encoded below:
- `isinstance(value, Any)` raises `TypeError` (`typing.Any` rejects
  instance checks);
- `isinstance(value, list[t])` / `isinstance(value, dict[k, v])` raise
  `TypeError` ("isinstance() argument 2 cannot be a parameterized
  generic");
- `isinstance(value, t | None)` (a `types.UnionType`) checks the arms in
  order; `bool` instances are `int` instances;
- `get_origin(t | None)` is `types.UnionType`, which is not
  `typing.Union`, so the `origin is Union` null shortcut is never taken
  for the modelled optional types;
- in `_deserialize`, `issubclass(t | None, Enum)` raises `TypeError`
  (argument 1 is not a class).
-/

/-- Models `isinstance(value, expected_type)` for the modelled target types. -/
def pyIsinstance (v : PVal) : TypeDesc → Except PyErr Bool
  | .anyT => Except.error (PyErr.typeError "typing.Any cannot be used with isinstance")
  | .strT => Except.ok (match v with | .vstr _ => true | _ => false)
  | .intT => Except.ok (match v with | .vint _ => true | .vbool _ => true | _ => false)
  | .boolT => Except.ok (match v with | .vbool _ => true | _ => false)
  | .optionalT t => do
      let b ← pyIsinstance v t
      if b then return true else return v.isNone
  | .listT none => Except.ok (match v with | .vlist _ => true | _ => false)
  | .listT (some _) =>
      Except.error (PyErr.typeError "isinstance argument 2 cannot be a parameterized generic")
  | .dictT none => Except.ok (match v with | .vdict _ => true | _ => false)
  | .dictT (some _) =>
      Except.error (PyErr.typeError "isinstance argument 2 cannot be a parameterized generic")

/-- Models `str(value)`.  String conversion of containers is simplified (CPython
renders `repr` quoting; no settled claim evaluates `str` on a container). -/
def pyStrOfVal : PVal → String
  | .vnone => "None"
  | .vint n => toString n
  | .vstr s => s
  | .vbool b => if b then "True" else "False"
  | .vlist _ => "<list>"
  | .vdict _ => "<dict>"

/-- Models the `int(value)` constructor cast. -/
def pyIntCast : PVal → Except PyErr PVal
  | .vint n => Except.ok (.vint n)
  | .vbool b => Except.ok (.vint (if b then 1 else 0))
  | .vstr s =>
      match s.toInt? with
      | some n => Except.ok (.vint n)
      | none => Except.error (PyErr.valueError ("invalid literal for int: " ++ s))
  | _ => Except.error (PyErr.typeError "int argument must be a string or a number")

/-- Models `for item in value` materialized: lists iterate their items, strings
their characters, dicts their keys; scalars are not iterable. -/
def pyIter : PVal → Except PyErr (List PVal)
  | .vlist xs => Except.ok xs
  | .vstr s => Except.ok (s.toList.map (fun c => PVal.vstr (String.mk [c])))
  | .vdict es => Except.ok (es.map (fun e => PVal.vstr e.1))
  | _ => Except.error (PyErr.typeError "object is not iterable")

/-- Models `dict(value)`: a dict is copied; a list of two-element `[key, value]`
pairs with string keys builds a dict; anything else fails. -/
def pyDictCast : PVal → Except PyErr PVal
  | .vdict es => Except.ok (.vdict es)
  | .vlist xs => do
      let es ← xs.mapM (fun x =>
        match x with
        | .vlist [PVal.vstr k, v] => Except.ok (k, v)
        | _ => (Except.error (PyErr.typeError "cannot convert dict update sequence") :
            Except PyErr (String × PVal)))
      Except.ok (.vdict es)
  | _ => Except.error (PyErr.typeError "object is not iterable")

/-- The `expected_type(value)` constructor fallback at the end of
`_deserialize` (reached when no earlier branch applied). -/
def pyCast : TypeDesc → PVal → Except PyErr PVal
  | .strT, v => Except.ok (.vstr (pyStrOfVal v))
  | .intT, v => pyIntCast v
  | .boolT, v => Except.ok (.vbool (pyTruthy v))
  | .listT none, v => do
      let xs ← pyIter v
      Except.ok (.vlist xs)
  | .dictT none, v => pyDictCast v
  | _, _ =>
      -- anyT is filtered by `expected_type is not Any` before the call;
      -- optionalT raises at the issubclass check; parameterized generics
      -- are dispatched to the origin branches.  None of these reach pyCast.
      Except.error (PyErr.typeError "unreachable constructor cast")

mutual

/-- Models `deserialize_value(value, expected_type)` (see the module comment for
the source text). -/
def deserialize_value (v : PVal) (t : TypeDesc) : Except PyErr PVal := do
  let inst ← pyIsinstance v t
  if inst then
    return v
  -- `if origin is Union and type(None) in args and value is None`:
  -- never satisfied for the modelled types (origin of `t | None` is
  -- types.UnionType, not typing.Union), so control falls through.
  pyDeserialize v t
termination_by (sizeOf t, 1, 0)

/-- Models `_deserialize(value, expected_type, origin)`.  Record target types
(`is_dataclass` + `from_dict`) are outside the model scope; the
`TYPE_TRANSFORMERS` table (datetime / date / time / UUID) likewise, so
`transformer` is `None` for every modelled type. -/
def pyDeserialize (v : PVal) (t : TypeDesc) : Except PyErr PVal :=
  match t with
  | .listT (some itemT) => do
      -- origin in (list, tuple): (item_type,) = get_type(expected_type, (Any,))
      let xs ← pyIter v
      let ys ← deserializeItems xs itemT
      return .vlist ys
  | .dictT (some kv) => do
      -- origin is dict: key_type, value_type = get_type(expected_type, (str, Any))
      let es ←
        match v with
        | .vdict es => Except.ok es
        | _ => (Except.error (PyErr.attributeError "items") :
            Except PyErr (List (String × PVal)))
      let es' ← deserializeEntries es kv.1 kv.2
      return .vdict es'
  | .optionalT _ =>
      -- issubclass(expected_type, Enum) with a types.UnionType argument
      Except.error (PyErr.typeError "issubclass arg 1 must be a class")
  | .anyT =>
      -- last line: `expected_type(value) if expected_type is not Any else value`
      Except.ok v
  | other =>
      -- str / int / bool / bare list / bare dict: not Enum subclasses and
      -- not in TYPE_TRANSFORMERS, so the constructor fallback runs.
      pyCast other v
termination_by (sizeOf t, 0, 0)
decreasing_by
  all_goals simp_wf
  all_goals apply Prod.Lex.left
  all_goals try omega
  all_goals obtain ⟨a, b⟩ := kv
  all_goals simp_arith

/-- The list comprehension
`[deserialize_value(item, item_type) for item in value]`. -/
def deserializeItems (xs : List PVal) (itemT : TypeDesc) : Except PyErr (List PVal) :=
  match xs with
  | [] => Except.ok []
  | x :: rest => do
      let y ← deserialize_value x itemT
      let ys ← deserializeItems rest itemT
      return y :: ys
termination_by (sizeOf itemT, 2, xs.length)

/-- The dict generator
`((deserialize_value(k, key_type), deserialize_value(v, value_type)) for k, v in ...)`.
Deserialized keys are re-rendered with `str` to keep the dict
string-keyed (CPython would allow non-string keys; no settled claim
depends on the difference). -/
def deserializeEntries (es : List (String × PVal)) (keyT valT : TypeDesc) :
    Except PyErr (List (String × PVal)) :=
  match es with
  | [] => Except.ok []
  | (k, v) :: rest => do
      let k' ← deserialize_value (.vstr k) keyT
      let v' ← deserialize_value v valT
      let rest' ← deserializeEntries rest keyT valT
      return (pyStrOfVal k', v') :: rest'
termination_by (sizeOf keyT + sizeOf valT, 2, es.length)
decreasing_by
  all_goals simp_wf
  all_goals first
    | (apply Prod.Lex.left
       have h1 : 1 ≤ sizeOf keyT := by cases keyT <;> simp +arith
       have h2 : 1 ≤ sizeOf valT := by cases valT <;> simp +arith
       omega)
    | (apply Prod.Lex.right
       apply Prod.Lex.right
       omega)

end

/-!
Per-field deserialization (`src/willow/_utils/_deserialize_field.py`)

```python
def deserialize_field(field, data, expected_type):
    deserializer = willow_metadata(field, "deserializer")
    try:
        value = data[field.name]
        if callable(deserializer):
            return deserializer(value)
        return deserialize_value(value, expected_type)
    except Exception as e:
        raise DeserializeError(f"Failed to deserialize field '{field.name}'",
                               field=field, value=data.get(field.name), error=e) from e
```

Every exception escaping the body — including the `KeyError` from
`data[field.name]` — is wrapped into a `DeserializeError` carrying the
field.  The embedding keeps the field name in the error.
-/

/-- Models `deserialize_field(field, data, type_hints.get(field.name, Any))` as
called from `from_dict` (the expected type is the field's resolved hint). -/
def deserialize_field (f : FieldD) (data : List (String × PVal)) : Except PyErr PVal :=
  let body : Except PyErr PVal :=
    match dlookup data f.name with
    | none => Except.error (PyErr.keyError f.name)
    | some value =>
      match f.deserializer with
      | some des => des value
      | none => deserialize_value value f.type
  match body with
  | Except.ok v => Except.ok v
  | Except.error _ =>
      Except.error (PyErr.deserializeError f.name
        ("Failed to deserialize field " ++ f.name))

/-- Models `is_required(field)` (`src/willow/_utils/_is_required.py`): no
default and no default factory. -/
def is_required (f : FieldD) : Bool :=
  f.default.isNone && f.defaultFactory.isNone

/-!
Deserialize orchestration (`src/willow/_utils/_from_dict.py`)

```python
def from_dict(cls, data):
    type_hints = get_type_hints(cls, globalns=globals())
    kwargs = dict()
    for field in fields(cls):
        if willow_metadata(field, "ignore", False):
            continue
        if field.name in data:
            kwargs[field.name] = deserialize_field(field, data,
                                                   type_hints.get(field.name, Any))
        elif is_required(field):
            raise DeserializeError(f"Missing required field '{field.name}'", field=field)
        elif field.default is not MISSING:
            kwargs[field.name] = field.default
        elif field.default_factory is not MISSING:
            try:
                kwargs[field.name] = field.default_factory()
            except Exception as e:
                raise DeserializeError(f"Failed to generate default for field
                                       '{field.name}'", ...) from e
    return cls(**kwargs)
```

The result models the assembled `kwargs` in field order; `cls(**kwargs)`
is only reached when no field raised, so an `Except.error` result is
exactly "no instance was constructed".
-/

/-- The per-field loop of `from_dict` over the remaining `fields(cls)`. -/
def fromDictGo (data : List (String × PVal)) :
    List FieldD → Except PyErr (List (String × PVal))
  | [] => Except.ok []
  | f :: rest =>
    if f.ignore then
      fromDictGo data rest
    else if containsKey data f.name then do
      let v ← deserialize_field f data
      let kwargs ← fromDictGo data rest
      Except.ok ((f.name, v) :: kwargs)
    else if is_required f then
      Except.error (PyErr.deserializeError f.name
        ("Missing required field " ++ f.name))
    else
      match f.default with
      | some d => do
          let kwargs ← fromDictGo data rest
          Except.ok ((f.name, d) :: kwargs)
      | none =>
        match f.defaultFactory with
        | some factory =>
          match factory () with
          | Except.ok d => do
              let kwargs ← fromDictGo data rest
              Except.ok ((f.name, d) :: kwargs)
          | Except.error _ =>
              Except.error (PyErr.deserializeError f.name
                ("Failed to generate default for field " ++ f.name))
        | none =>
          -- unreachable: `is_required f` is true exactly when both the
          -- default and the factory are absent, and that case returned above
          Except.error (PyErr.deserializeError f.name
            ("Missing required field " ++ f.name))

/-- Models `from_dict(cls, data)`: the dataclass type is its ordered field list;
the constructed instance is the assembled keyword mapping. -/
def from_dict (fields : List FieldD) (data : List (String × PVal)) :
    Except PyErr (List (String × PVal)) :=
  fromDictGo data fields

/-!
Key resolution (`src/willow/_utils/_resolve_field_key.py`)

```python
def resolve_field_key(field, data):
    metadata = willow_metadata(field, "json", {})
    key = metadata.get("key")
    if key and key in data:
        return key
    aliases = metadata.get("aliases", [])
    if isinstance(aliases, str):
        aliases = [aliases]
    for alias in aliases:
        if alias in data:
            return alias
    return field.name
```

`if key and key in data` tests the *truthiness* of `key` first: both the
absent key (`None`) and the empty string are falsy and skip the branch.
A single-string `aliases` normalizes to the one-element list, so the
embedding's alias list covers both spellings.
-/

/-- The `for alias in aliases: if alias in data: return alias` loop:
`some` of the first alias present, `none` when the loop falls through. -/
def aliasLoop (data : List (String × PVal)) : List String → Option String
  | [] => none
  | a :: rest => if containsKey data a then some a else aliasLoop data rest

/-- The alias loop followed by the `return field.name` fallback. -/
def resolveAliases (f : FieldD) (data : List (String × PVal)) : String :=
  match aliasLoop data f.aliases with
  | some a => a
  | none => f.name

/-- Direct translation of `resolve_field_key` (source in the module
comment above). -/
def resolve_field_key (f : FieldD) (data : List (String × PVal)) : String :=
  match f.jsonKey with
  | some k => if k != "" && containsKey data k then k else resolveAliases f data
  | none => resolveAliases f data

/-!
JSON deserialization (`src/willow/_utils/_from_json.py`)

```python
try:
    _data = loads(s, ...)
    _data = _data[wrapper] if wrapper else _data
    data = dict()
    for field in fields(cls):
        key = resolve_field_key(field, _data)
        if key not in _data:
            continue
        if field.name in data:
            raise KeyError(f"Duplicate key '{key}' for field '{field.name}'")
        data[field.name] = _data[key]
    return from_dict(cls, data)
except JSONDecodeError as e:
    raise DeserializeError(...) from e
```

The embedding models the phase after `loads` (the parsed tree is the
input; parse failures are the wrapped-`JSONDecodeError` path, which is
not where any claim lives).  The `except` clause catches **only**
`JSONDecodeError`: the `KeyError` raised by the duplicate-field guard
(and any error from `from_dict`) propagates out of `from_json` as-is.
-/

/-- The per-field key-resolution loop of `from_json`, carrying the
accumulated `data` dict. -/
def fromJsonGo (jdata : List (String × PVal)) :
    List FieldD → List (String × PVal) → Except PyErr (List (String × PVal))
  | [], acc => Except.ok acc
  | f :: rest, acc =>
    let key := resolve_field_key f jdata
    match dlookup jdata key with
    | none => fromJsonGo jdata rest acc
    | some v =>
      if containsKey acc f.name then
        Except.error (PyErr.keyError
          ("Duplicate key " ++ key ++ " for field " ++ f.name))
      else
        fromJsonGo jdata rest (acc ++ [(f.name, v)])

/-- Models `from_json` after a successful parse (and with no `wrapper`): resolve
every field's input key, then hand the assembled mapping to `from_dict`. -/
def from_json_parsed (fields : List FieldD) (jdata : List (String × PVal)) :
    Except PyErr (List (String × PVal)) := do
  let data ← fromJsonGo jdata fields []
  from_dict fields data

/-!
Cached `asdict` and `update` (`mixins/_willow.py`, `mixins/_updateable.py`)

`WillowMixin.asdict`:

```python
def asdict(self, *, dict_factory=dict, refresh=False):
    if refresh or self.__willow_asdict is None:
        self.__willow_asdict = asdict(self, dict_factory=dict_factory)
    return self.__willow_asdict
```

It returns the cached dict **object itself**, not a copy.

`Updatable.update`:

```python
def update(self, *, use_deepcopy=False, **kwargs):
    data = self.asdict()
    data.update(kwargs)
    if use_deepcopy is True:
        data = deepcopy(data)
    return self.__class__(**data)
```

`data` aliases `self.__willow_asdict`, so `data.update(kwargs)` mutates
the dict stored in the source instance's cache in place (the optional
`deepcopy` runs only afterwards).  The embedding makes the aliasing
explicit: mutating the returned dict is modelled as writing the merged
dict back into the cache slot it aliases.

The model instance holds scalar-valued fields and no public properties
(`_members` then returns exactly the fields; `capture_obj` returns
scalars unchanged, and `cls(**data)` accepts exactly the field names).
The hook machinery is not involved: `update` never assigns to a field of
`self`, so `__setattr__`-driven cache invalidation cannot fire.
-/

/-- A `WillowMixin` dataclass instance with scalar-valued fields: its
field values in declaration order and the `__willow_asdict` cache slot
(`None` initially). -/
structure WInst where
  vals : List (String × PVal)
  asdictCache : Option (List (String × PVal)) := none

/-- The snapshot `asdict(self)` computes on a cache miss: every field
captured by `capture_obj` (scalars come back unchanged; the map keeps
declaration order). -/
def WInst.snapshot (s : WInst) : List (String × PVal) :=
  s.vals.map (fun nv => (nv.1, captureVal nv.2))

/-- Models `self.asdict()` with `refresh=False`: returns the cached dict object
(first computing and storing it on a miss) together with the
possibly-updated instance state.  The returned dict and the cache slot
are the *same* Python object. -/
def WInst.asdictOp (s : WInst) : List (String × PVal) × WInst :=
  match s.asdictCache with
  | some d => (d, s)
  | none =>
    let d := s.snapshot
    (d, { s with asdictCache := some d })

/-- Python `dict.update`: keys already present are overwritten in place
(keeping their position), new keys are appended in order. -/
def dictUpdate (d : List (String × PVal)) (kwargs : List (String × PVal)) :
    List (String × PVal) :=
  kwargs.foldl (fun acc kv =>
    if containsKey acc kv.1 then
      acc.map (fun e => if e.1 = kv.1 then (e.1, kv.2) else e)
    else
      acc ++ [kv]) d

/-- Models `self.update(**kwargs)` with `use_deepcopy=False`: returns the
source instance as `update` leaves it, and the freshly constructed
instance.  `data.update(kwargs)` mutates the cache the returned dict
aliases, so the source's cache slot ends up holding the merged dict. -/
def WInst.updateOp (s : WInst) (kwargs : List (String × PVal)) : WInst × WInst :=
  let (data, s1) := s.asdictOp
  let merged := dictUpdate data kwargs
  let source := { s1 with asdictCache := some merged }
  (source, { vals := merged, asdictCache := none })

/-- Models `self.copy()` as `self.update()` with no overrides. -/
def WInst.copyOp (s : WInst) : WInst × WInst :=
  s.updateOp []

/-!
`batch_update` (`mixins/_updateable.py`)

```python
@contextmanager
def batch_update(self):
    original = self._willow_validation
    self._willow_validation = False

    yield self

    self._willow_validation = original

    if self._willow_validation and hasattr(self, "_validate_field"):
        for field_name in self._dirty_fields:
            ...
            self._validate_field(field, value)
```

There is no `try`/`finally` around the `yield`.  Under
`contextlib.contextmanager` semantics, when the `with` body raises, the
exception is thrown into the generator at the `yield` point and
propagates out of the generator immediately: the statements after
`yield` — including the restoration `self._willow_validation = original`
— never execute.  Only bodies that complete normally reach the
restoration and the deferred validation pass.

The model state carries the validation flag; the body is an arbitrary
state transformer which reports whether it raised.  The deferred
validation pass never writes the flag (it only reads it), so it is
modelled as a read-only step that may raise after restoration.
-/

/-- Mixin state seen by `batch_update`: the `_willow_validation` flag
and the rest of the instance (field values / dirty set), which the flag
logic never inspects. -/
structure VState where
  validation : Bool
  dirty : List String := []

/-- Outcome of running a `with s.batch_update():` block whose body is
`body` (a state transformer returning `true` in the second component if
it raised): the final instance state and whether an exception propagated
out of the `with` statement.  `postValidate` models the deferred
validation pass over the dirty fields (it can raise but never writes the
flag). -/
def batch_update (s : VState) (body : VState → VState × Bool)
    (postValidate : VState → Bool) : VState × Bool :=
  let original := s.validation
  let s1 : VState := { s with validation := false }
  let (s2, raised) := body s1
  if raised then
    -- the exception is thrown into the generator at the yield point and
    -- propagates: the restoration line never runs
    (s2, true)
  else
    let s3 : VState := { s2 with validation := original }
    if s3.validation then
      (s3, postValidate s3)
    else
      (s3, false)

/-!
Concrete fixtures

`Person` is the repository's own example record (`src/scratch.py`):

```python
@dataclass
class Person(Serializable):
    user_id: str = field(json={"key": "userId"})
```

(one required string field, an output-key override, no custom
serializer / deserializer, no properties).  The other fixtures are
minimal records exercising one claim each.
-/

/-- The `user_id` field of `Person`. -/
def personField : FieldD :=
  { name := "user_id", type := TypeDesc.strT, jsonKey := some "userId" }

/-- Models `Person(user_id="abc123")` as the serializer sees it. -/
def personObj : PyObj :=
  { members := [("user_id", MemberD.fieldM personField)]
    vals := [("user_id", PVal.vstr "abc123")] }

/-- An optional string field whose value is `None` in `noneObj`. -/
def nickField : FieldD :=
  { name := "nickname", type := TypeDesc.optionalT TypeDesc.strT
    default := some PVal.vnone }

/-- An instance whose single field holds `None`. -/
def noneObj : PyObj :=
  { members := [("nickname", MemberD.fieldM nickField)]
    vals := [("nickname", PVal.vnone)] }

/-- An integer field with declared default `0`. -/
def countField : FieldD :=
  { name := "count", type := TypeDesc.intT, default := some (PVal.vint 0) }

/-- An instance whose `count` field currently equals its default. -/
def countObj : PyObj :=
  { members := [("count", MemberD.fieldM countField)]
    vals := [("count", PVal.vint 0)] }

/-- A derived member (a `property` with empty `__willow__` metadata). -/
def displayProp : PropD := {}

/-- An instance exposing the derived member `display_name`. -/
def propObj : PyObj :=
  { members := [("display_name", MemberD.propM displayProp)]
    vals := [("display_name", PVal.vstr "Ada")] }

/-- The `TypeError` message produced when `capture_member` calls
`serialize_obj` with its three positional and two keyword arguments. -/
def serializeObjTypeError : PyErr :=
  PyErr.typeError "serialize_obj takes 2 positional arguments but 3 were given"

/-- The metadata `key` branch is skipped: either no `key` is set, or the
set key is the empty string (falsy) or absent from the input. -/
def keyBranchSkipped (f : FieldD) (data : List (String × PVal)) : Prop :=
  ∀ k, f.jsonKey = some k → k = "" ∨ containsKey data k = false

/-- A field whose metadata `key` is the empty string. -/
def emptyKeyField : FieldD :=
  { name := "user_id", jsonKey := some "" }

/-- The spec's own alias-precedence example: `key="userId"`,
`aliases=["uid"]`. -/
def aliasField : FieldD :=
  { name := "user_id", jsonKey := some "userId", aliases := ["uid"] }

/-- Holds `true` on `Except.ok`. -/
def exceptOk {α : Type} : Except PyErr α → Bool
  | Except.ok _ => true
  | Except.error _ => false

/-- One iteration of `from_dict`'s loop completes without raising for
field `g` on input `data` (it is skipped as ignored, deserializes
successfully, or obtains a default). -/
def fieldStepOk (g : FieldD) (data : List (String × PVal)) : Bool :=
  if g.ignore then true
  else if containsKey data g.name then exceptOk (deserialize_field g data)
  else if is_required g then false
  else
    match g.default with
    | some _ => true
    | none =>
      match g.defaultFactory with
      | some factory => exceptOk (factory ())
      | none => false

/-- Two required fields (`alpha` declared before `f`), both with no
default and no factory. -/
def alphaField : FieldD := { name := "alpha" }

/-- The required field the claim quantifies over in the counterexample. -/
def fRequiredField : FieldD := { name := "f" }

/-- A defaulted field declared before the required one. -/
def betaField : FieldD := { name := "beta", default := some (PVal.vint 3) }

/-- Holds `true` exactly when the result is a raised `KeyError`. -/
def errIsKeyError {α : Type} : Except PyErr α → Bool
  | Except.error e => e.isKeyError
  | Except.ok _ => false

/-- A field named `x` (no metadata). -/
def dupField : FieldD := { name := "x" }

/-!
Helper lemmas used by the claim theorems below.
-/

theorem dlookup_append_of_not_mem_keys (d e : List (String × PVal)) (k : String)
    (h : ∀ p ∈ e, p.1 ≠ k) : dlookup (d ++ e) k = dlookup d k := by
  induction d with
  | nil =>
    simp only [List.nil_append]
    induction e with
    | nil => rfl
    | cons p rest ih =>
      have hp : p.1 ≠ k := h p (List.mem_cons_self p rest)
      simp only [dlookup, hp, if_neg hp]
      exact ih (fun q hq => h q (List.mem_cons_of_mem p hq))
  | cons p rest ih =>
    by_cases hp : p.1 = k
    · simp only [List.cons_append, dlookup]
      obtain ⟨k', v⟩ := p
      simp only at hp
      simp [hp]
    · simp only [List.cons_append, dlookup]
      obtain ⟨k', v⟩ := p
      simp only at hp
      simp only [if_neg hp]
      exact ih

/-- Claim C1 (round-trip under `ALWAYS`).  The claim asserts
`from_dict(T, to_dict(r)) == r` for every record `r` under the total
policy.  On the code, `to_dict` never produces a dictionary at all:
for the repository's own example instance `Person(user_id="abc123")`
(and any member without a custom serializer) the `capture_member` loop
calls `serialize_obj` — passed as `capture_fn=serialize_obj` by
`to_dict` — with three positional arguments plus `dict_factory` /
`list_factory` keywords, though `serialize_obj(obj, stack)` declares two
positional parameters and no keyword parameters, so the call raises
`TypeError` and the round trip cannot even start. -/
theorem C1_to_dict_raises_type_error :
    to_dict personObj Include.ALWAYS = Except.error serializeObjTypeError := by
  rfl

/-- Claim C2 (NON_NULL inclusion).  The claim asserts the decision is
`v is not None` and never raises.  On the code, any policy other than
`ALWAYS` makes `include_member` evaluate the expression
`Include.NON_NONE`; the enum declares `NON_NULL`, not `NON_NONE`, so the
access raises `AttributeError` on every evaluation — both in the bare
decision and through `to_dict`, which therefore produces no mapping at
all instead of a mapping without the `None`-valued field. -/
theorem C2_non_null_decision_raises_attribute_error :
    include_member noneObj "nickname" (MemberD.fieldM nickField) PVal.vnone
        Include.NON_NULL
      = Except.error (PyErr.attributeError "NON_NONE")
    ∧ to_dict noneObj Include.NON_NULL
      = Except.error (PyErr.attributeError "NON_NONE") := by
  exact ⟨rfl, rfl⟩

/-- Claim C3 (NON_DEFAULT inclusion for fields).  The claim asserts a field
equal to its declared default is excluded from `to_dict` output.  On the
code, `include_member` raises `AttributeError` (the `Include.NON_NONE`
access) before its NON_DEFAULT branch is ever reached, so `to_dict`
under NON_DEFAULT raises instead of excluding the field — even though
`countObj`'s field value equals its declared default.  (The NON_DEFAULT
branch itself, were it reachable, compares `value` with
`getattr(obj, member.name)` — the member's *current* value, not its
default; the default-comparing variant `include_field`/`default_value`
exists in the source but has no caller.) -/
theorem C3_non_default_to_dict_raises :
    to_dict countObj Include.NON_DEFAULT
      = Except.error (PyErr.attributeError "NON_NONE") := by
  rfl

/-- Claim C8 (NON_DEFAULT on a derived member).  The claim asserts the
decision raises `InclusionError` for a property under NON_DEFAULT.  On
the code, the `Include.NON_NONE` access raises `AttributeError` before
the `isinstance(member, property)` check is reached, so the error
produced is a native `AttributeError`, not the domain `InclusionError`. -/
theorem C8_non_default_property_raises_attribute_error :
    include_member propObj "display_name" (MemberD.propM displayProp)
        (PVal.vstr "Ada") Include.NON_DEFAULT
      = Except.error (PyErr.attributeError "NON_NONE")
    ∧ (PyErr.attributeError "NON_NONE")
        ≠ PyErr.inclusionError
            "Cannot use Include.NON_DEFAULT with include_properties=True" := by
  exact ⟨rfl, by decide⟩

/-- Claim C4 (update does not disturb the source).  The claim asserts a
subsequent `asdict()` on the source still reflects the source's own
field values.  On the code, `update` obtains `data = self.asdict()` — an
alias of the source's `__willow_asdict` cache — and merges the overrides
into it in place, so the source's next `asdict()` returns the overridden
mapping even though its fields are unchanged: starting from `x = 1`,
after `update(x=2)` the source's fields still say `x = 1` (and a fresh
snapshot would say so) but `asdict()` on the source reports `x = 2`. -/
theorem C4_update_poisons_source_asdict_cache :
    (WInst.updateOp { vals := [("x", PVal.vint 1)] } [("x", PVal.vint 2)]).1.vals
      = [("x", PVal.vint 1)]
    ∧ ((WInst.updateOp { vals := [("x", PVal.vint 1)] } [("x", PVal.vint 2)]).1.asdictOp).1
      = [("x", PVal.vint 2)]
    ∧ (WInst.updateOp { vals := [("x", PVal.vint 1)] } [("x", PVal.vint 2)]).1.snapshot
      = [("x", PVal.vint 1)]
    ∧ (WInst.updateOp { vals := [("x", PVal.vint 1)] } [("x", PVal.vint 2)]).2.vals
      = [("x", PVal.vint 2)] := by
  exact ⟨rfl, rfl, rfl, rfl⟩

/-- Claim C7 (batch_update flag restoration).  The claim asserts the
validation flag is restored on every exit path.  On the code the
restoration line sits after the bare `yield` with no `try`/`finally`,
so it runs only when the body completes normally: with the flag
initially `True`, a body that raises leaves the instance with validation
permanently disabled, while a normally-completing body gets the flag
restored. -/
theorem C7_batch_update_flag_left_disabled_on_exception :
    (batch_update { validation := true } (fun s => (s, true)) (fun _ => false)).1.validation
      = false
    ∧ (batch_update { validation := true } (fun s => (s, true)) (fun _ => false)).2
      = true
    ∧ (batch_update { validation := true } (fun s => (s, false)) (fun _ => false)).1.validation
      = true := by
  exact ⟨rfl, rfl, rfl⟩

/-!
Claim C9 — key resolution precedence
-/

/-- The alias loop is exactly "first alias, in declared order, that is
present in the input". -/
theorem aliasLoop_eq_find (data : List (String × PVal)) (as' : List String) :
    aliasLoop data as' = as'.find? (fun a => containsKey data a) := by
  induction as' with
  | nil => rfl
  | cons a rest ih =>
    by_cases h : containsKey data a = true
    · simp [aliasLoop, List.find?, h]
    · have h' : containsKey data a = false := by
        cases hb : containsKey data a
        · rfl
        · exact absurd hb h
      simp [aliasLoop, List.find?, h', ih]



/-- Claim C9, counterexample.  The claim says `resolve_field_key` returns
the field's metadata `key` whenever that key is present in the mapping.
With `key=""` — expressible metadata, and `""` a legal dict key — the
truthiness test `if key and key in data` skips the branch, and the
function falls through to the field's own name instead of returning
the (present) key `""`. -/
theorem C9_counterexample_empty_key_skipped :
    emptyKeyField.jsonKey = some ""
    ∧ containsKey [("", PVal.vnone)] "" = true
    ∧ resolve_field_key emptyKeyField [("", PVal.vnone)] = "user_id"
    ∧ ("user_id" : String) ≠ "" := by
  exact ⟨rfl, rfl, rfl, by decide⟩

/-- Claim C9, amended.  `resolve_field_key` returns the field's metadata
`key` when that key is a *non-empty* string present in the mapping;
otherwise the first alias, in declared order, present in the mapping;
otherwise the field's own name (whether or not present). -/
theorem C9_resolve_field_key_precedence (f : FieldD) (d : List (String × PVal)) :
    (∀ k, f.jsonKey = some k → k ≠ "" → containsKey d k = true →
      resolve_field_key f d = k)
    ∧ (∀ a, keyBranchSkipped f d →
        f.aliases.find? (fun x => containsKey d x) = some a →
        resolve_field_key f d = a)
    ∧ (keyBranchSkipped f d →
        f.aliases.find? (fun x => containsKey d x) = none →
        resolve_field_key f d = f.name) := by
  refine ⟨?_, ?_, ?_⟩
  · intro k hk hne hc
    simp only [resolve_field_key, hk]
    have hbne : (k != "") = true := bne_iff_ne.mpr hne
    simp [hbne, hc]
  · intro a hskip hfind
    have halias : resolveAliases f d = a := by
      simp only [resolveAliases, aliasLoop_eq_find, hfind]
    cases hk : f.jsonKey with
    | none => simp only [resolve_field_key, hk, halias]
    | some k =>
      simp only [resolve_field_key, hk]
      rcases hskip k hk with h | h
      · subst h
        simp [halias]
      · simp [h, halias]
  · intro hskip hfind
    have halias : resolveAliases f d = f.name := by
      simp only [resolveAliases, aliasLoop_eq_find, hfind]
    cases hk : f.jsonKey with
    | none => simp only [resolve_field_key, hk, halias]
    | some k =>
      simp only [resolve_field_key, hk]
      rcases hskip k hk with h | h
      · subst h
        simp [halias]
      · simp [h, halias]


/-- Claim C9, witness: on an input containing both `userId` and `uid`, the
amended precedence resolves to `userId`. -/
theorem C9_resolve_field_key_precedence_witness :
    resolve_field_key aliasField [("userId", PVal.vstr "1"), ("uid", PVal.vstr "2")]
      = "userId" := by
  exact (C9_resolve_field_key_precedence aliasField
    [("userId", PVal.vstr "1"), ("uid", PVal.vstr "2")]).1 "userId" rfl
    (by decide) (by decide)

/-!
Claim C10 — unknown input keys are ignored
-/

/-- Lemma: `deserialize_field` reads the input mapping only at the field's own
name (`data[field.name]` / `data.get(field.name)`). -/
theorem deserialize_field_congr (f : FieldD) (d d' : List (String × PVal))
    (h : dlookup d' f.name = dlookup d f.name) :
    deserialize_field f d' = deserialize_field f d := by
  simp only [deserialize_field, h]

/-- Claim C10.  Extending the input mapping with entries whose keys are
not declared field names leaves `from_dict` unchanged: same success /
failure, same error, and a field-for-field equal instance on success —
unknown keys are silently ignored. -/
theorem C10_from_dict_ignores_unknown_keys (fields : List FieldD)
    (d extra : List (String × PVal))
    (h : ∀ p ∈ extra, p.1 ∉ fields.map FieldD.name) :
    from_dict fields (d ++ extra) = from_dict fields d := by
  simp only [from_dict]
  induction fields with
  | nil => rfl
  | cons f rest ih =>
    have hf : ∀ p ∈ extra, p.1 ≠ f.name := by
      intro p hp
      have := h p hp
      simp only [List.map_cons, List.mem_cons] at this
      exact fun hc => this (Or.inl hc)
    have hrest : ∀ p ∈ extra, p.1 ∉ rest.map FieldD.name := by
      intro p hp
      have := h p hp
      simp only [List.map_cons, List.mem_cons] at this
      exact fun hc => this (Or.inr hc)
    have hlook : dlookup (d ++ extra) f.name = dlookup d f.name :=
      dlookup_append_of_not_mem_keys d extra f.name hf
    have hck : containsKey (d ++ extra) f.name = containsKey d f.name := by
      simp only [containsKey, hlook]
    have hdf : deserialize_field f (d ++ extra) = deserialize_field f d :=
      deserialize_field_congr f d (d ++ extra) hlook
    simp only [fromDictGo, hck, hdf, ih hrest]

/-- Claim C10, witness: adding the unknown key `unknown` to `Person`'s
input does not change the deserialization result. -/
theorem C10_from_dict_ignores_unknown_keys_witness :
    from_dict [personField] ([("user_id", PVal.vstr "a")] ++ [("unknown", PVal.vint 7)])
      = from_dict [personField] [("user_id", PVal.vstr "a")] := by
  exact C10_from_dict_ignores_unknown_keys [personField]
    [("user_id", PVal.vstr "a")] [("unknown", PVal.vint 7)] (by decide)

/-!
Claim C5 — missing required field
-/





/-- Claim C5, counterexample.  The claim asserts that for *every* required
field `f` missing from the input, `from_dict` raises a `DeserializeError`
identifying `f`.  On a type declaring two required fields `alpha` and
`f`, with the empty input both are missing, but the loop stops at the
first one: the error identifies `alpha`, not `f`. -/
theorem C5_counterexample_error_names_first_missing :
    is_required fRequiredField = true
    ∧ containsKey [] "f" = false
    ∧ from_dict [alphaField, fRequiredField] []
      = Except.error (PyErr.deserializeError "alpha" "Missing required field alpha") := by
  exact ⟨rfl, rfl, rfl⟩

/-- Claim C5, amended.  If `f` is required, not ignored, and absent from the
input, and every field declared *before* `f` processes without raising
(in particular when `f` is the first — or only — such field), then
`from_dict` raises a `DeserializeError` identifying `f`, and no instance
is constructed (the error short-circuits before `cls(**kwargs)`). -/
theorem C5_missing_required_field_raises (pre post : List FieldD) (f : FieldD)
    (data : List (String × PVal))
    (hig : f.ignore = false) (hreq : is_required f = true)
    (habs : containsKey data f.name = false)
    (hpre : ∀ g ∈ pre, fieldStepOk g data = true) :
    from_dict (pre ++ f :: post) data
      = Except.error (PyErr.deserializeError f.name
          ("Missing required field " ++ f.name)) := by
  simp only [from_dict]
  induction pre with
  | nil =>
    simp [fromDictGo, hig, habs, hreq]
  | cons g rest ih =>
    have hg : fieldStepOk g data = true := hpre g (List.mem_cons_self g rest)
    have hrest : ∀ g' ∈ rest, fieldStepOk g' data = true :=
      fun g' hg' => hpre g' (List.mem_cons_of_mem g hg')
    have ihr := ih hrest
    simp only [List.cons_append, fromDictGo]
    by_cases hgi : g.ignore
    · simp only [hgi, if_true]
      exact ihr
    · simp only [hgi, if_false]
      simp only [fieldStepOk, hgi, if_false] at hg
      by_cases hgc : containsKey data g.name = true
      · simp only [hgc, if_true]
        simp only [hgc, if_true] at hg
        cases hdf : deserialize_field g data with
        | ok v =>
          simp [hdf, bind, Except.bind, List.append_eq, ihr]
        | error e =>
          rw [hdf] at hg
          simp [exceptOk] at hg
      · have hgc' : containsKey data g.name = false := by
          cases hb : containsKey data g.name
          · rfl
          · exact absurd hb hgc
        simp only [hgc', Bool.false_eq_true, if_false]
        simp only [hgc', Bool.false_eq_true, if_false] at hg
        by_cases hgr : is_required g = true
        · rw [hgr] at hg
          simp at hg
        · have hgr' : is_required g = false := by
            cases hb : is_required g
            · rfl
            · exact absurd hb hgr
          simp only [hgr', Bool.false_eq_true, if_false]
          simp only [hgr'] at hg
          cases hd : g.default with
          | some d =>
            simp [hd, bind, Except.bind, List.append_eq, ihr]
          | none =>
            simp only [hd] at hg ⊢
            cases hf : g.defaultFactory with
            | some factory =>
              simp only [hf] at hg ⊢
              cases hfr : factory () with
              | ok d =>
                simp [hfr, bind, Except.bind, List.append_eq, ihr]
              | error e =>
                rw [hfr] at hg
                simp [exceptOk] at hg
            | none =>
              simp only [hf] at hg
              simp at hg


/-- Claim C5, witness: with the defaulted `beta` before it, the missing
required `f` is identified by the raised `DeserializeError`. -/
theorem C5_missing_required_field_raises_witness :
    from_dict [betaField, fRequiredField] []
      = Except.error (PyErr.deserializeError "f" "Missing required field f") := by
  exact C5_missing_required_field_raises [betaField] [] fRequiredField []
    rfl rfl rfl (by decide)

/-!
Claim C6 — duplicate resolved keys
-/


/-- Lemma: `deserialize_field` either succeeds or raises the wrapped
`DeserializeError` for its field — every exception in its body is caught
and re-raised as `DeserializeError`. -/
theorem deserialize_field_shape (f : FieldD) (data : List (String × PVal)) :
    (∃ v, deserialize_field f data = Except.ok v)
    ∨ deserialize_field f data
      = Except.error (PyErr.deserializeError f.name
          ("Failed to deserialize field " ++ f.name)) := by
  simp only [deserialize_field]
  cases hdl : dlookup data f.name with
  | none => exact Or.inr rfl
  | some value =>
    cases hdes : f.deserializer with
    | some des =>
      cases hd : des value with
      | ok v =>
        refine Or.inl ⟨v, ?_⟩
        simp [hd]
      | error e =>
        refine Or.inr ?_
        simp [hd]
    | none =>
      cases hd : deserialize_value value f.type with
      | ok v =>
        refine Or.inl ⟨v, ?_⟩
        simp [hd]
      | error e =>
        refine Or.inr ?_
        simp [hd]

/-- Every error `from_dict`'s loop raises is a `DeserializeError` — in
particular never a `KeyError`. -/
theorem fromDictGo_no_keyError (data : List (String × PVal)) (fields : List FieldD) :
    errIsKeyError (fromDictGo data fields) = false := by
  induction fields with
  | nil => rfl
  | cons f rest ih =>
    simp only [fromDictGo]
    by_cases hfi : f.ignore
    · simp only [hfi, if_true]
      exact ih
    · simp only [hfi, if_false]
      by_cases hfc : containsKey data f.name = true
      · simp only [hfc, if_true]
        rcases deserialize_field_shape f data with ⟨v, hdf⟩ | hdf
        · cases hrec : fromDictGo data rest with
          | ok kwargs => simp [hdf, hrec, bind, Except.bind, errIsKeyError]
          | error e =>
            rw [hrec] at ih
            simp [hdf, hrec, bind, Except.bind]
            simpa [errIsKeyError] using ih
        · simp [hdf, bind, Except.bind, errIsKeyError, PyErr.isKeyError]
      · have hfc2 : containsKey data f.name = false := by
          cases hb : containsKey data f.name
          · rfl
          · exact absurd hb hfc
        simp only [hfc2, Bool.false_eq_true, if_false]
        by_cases hfr : is_required f = true
        · simp [hfr, errIsKeyError, PyErr.isKeyError]
        · have hfr2 : is_required f = false := by
            cases hb : is_required f
            · rfl
            · exact absurd hb hfr
          simp only [hfr2, Bool.false_eq_true, if_false]
          cases hd : f.default with
          | some d =>
            cases hrec : fromDictGo data rest with
            | ok kwargs => simp [hrec, bind, Except.bind, errIsKeyError]
            | error e =>
              rw [hrec] at ih
              simp [hrec, bind, Except.bind]
              simpa [errIsKeyError] using ih
          | none =>
            cases hf : f.defaultFactory with
            | some factory =>
              cases hfa : factory () with
              | ok d =>
                cases hrec : fromDictGo data rest with
                | ok kwargs => simp [hfa, hrec, bind, Except.bind, errIsKeyError]
                | error e =>
                  rw [hrec] at ih
                  simp [hfa, hrec, bind, Except.bind]
                  simpa [errIsKeyError] using ih
              | error e => simp [hfa, errIsKeyError, PyErr.isKeyError]
            | none => simp [errIsKeyError, PyErr.isKeyError]

/-- Appending one entry to a dict extends key membership by exactly that
entry's key. -/
theorem containsKey_append_single (acc : List (String × PVal)) (p : String × PVal)
    (k : String) :
    containsKey (acc ++ [p]) k = (containsKey acc k || decide (p.1 = k)) := by
  induction acc with
  | nil =>
    simp only [List.nil_append, containsKey, dlookup]
    by_cases h : p.1 = k
    · obtain ⟨n, v⟩ := p
      simp only at h
      simp [h]
    · obtain ⟨n, v⟩ := p
      simp only at h
      simp [h, dlookup]
  | cons q rest ih =>
    obtain ⟨n, v⟩ := q
    by_cases h : n = k
    · simp [containsKey, dlookup, h]
    · simp only [List.cons_append, containsKey, dlookup, if_neg h]
      exact ih

/-- The key-resolution loop of `from_json` never raises its duplicate
`KeyError` when the declared field names are distinct and none is
already present in the accumulator: each field writes its own name
exactly once. -/
theorem fromJsonGo_no_keyError (jdata : List (String × PVal)) (fields : List FieldD)
    (acc : List (String × PVal))
    (hnd : (fields.map FieldD.name).Nodup)
    (hacc : ∀ g ∈ fields, containsKey acc g.name = false) :
    errIsKeyError (fromJsonGo jdata fields acc) = false := by
  induction fields generalizing acc with
  | nil => rfl
  | cons f rest ih =>
    simp only [List.map_cons, List.nodup_cons] at hnd
    obtain ⟨hfn, hndr⟩ := hnd
    simp only [fromJsonGo]
    cases hdl : dlookup jdata (resolve_field_key f jdata) with
    | none =>
      exact ih acc hndr (fun g hg => hacc g (List.mem_cons_of_mem f hg))
    | some v =>
      have hcur : containsKey acc f.name = false := hacc f (List.mem_cons_self f rest)
      simp only [hcur, Bool.false_eq_true, if_false]
      refine ih (acc ++ [(f.name, v)]) hndr ?_
      intro g hg
      rw [containsKey_append_single]
      have hg1 : containsKey acc g.name = false :=
        hacc g (List.mem_cons_of_mem f hg)
      have hg2 : f.name ≠ g.name := by
        intro heq
        exact hfn (heq ▸ List.mem_map_of_mem FieldD.name hg)
      simp [hg1, hg2]


/-- Claim C6, counterexample.  The claim asserts that a collision of two
resolved keys onto one field name makes `from_json` raise
`DeserializeError`, never a bare native `KeyError`.  At the only place
the code detects such a collision — the `field.name in data` guard in
the `from_json` loop, exercised here by running the loop over a field
list carrying the same field twice — the raised exception is the bare
`KeyError`, and it is not a `DeserializeError` (the surrounding `try`
catches only `JSONDecodeError`, so nothing rewraps it). -/
theorem C6_counterexample_duplicate_raises_bare_keyerror :
    from_json_parsed [dupField, dupField] [("x", PVal.vint 1)]
      = Except.error (PyErr.keyError "Duplicate key x for field x")
    ∧ (PyErr.keyError "Duplicate key x for field x").isDeserializeError = false := by
  exact ⟨rfl, rfl⟩

/-- Claim C6, amended.  For an actual dataclass — whose declared field
names are distinct — the collision condition is unreachable: each field
resolves exactly one input key and writes its own name once, so
`from_json` never raises a `KeyError` for any parsed input (the
duplicate guard is dead code, and every deserialization failure
downstream is a wrapped `DeserializeError`). -/
theorem C6_from_json_never_raises_keyerror (fields : List FieldD)
    (jdata : List (String × PVal))
    (hnd : (fields.map FieldD.name).Nodup) :
    errIsKeyError (from_json_parsed fields jdata) = false := by
  simp only [from_json_parsed]
  cases hassm : fromJsonGo jdata fields [] with
  | error e =>
    have h := fromJsonGo_no_keyError jdata fields [] hnd
      (fun g _ => rfl)
    rw [hassm] at h
    simp [bind, Except.bind]
    simpa [errIsKeyError] using h
  | ok data =>
    simp only [bind, Except.bind]
    exact fromDictGo_no_keyError data fields

/-- Claim C6, witness: for the `Person` record and its JSON input keyed by
`userId`, no `KeyError` escapes. -/
theorem C6_from_json_never_raises_keyerror_witness :
    errIsKeyError (from_json_parsed [personField] [("userId", PVal.vstr "abc123")])
      = false := by
  exact C6_from_json_never_raises_keyerror [personField]
    [("userId", PVal.vstr "abc123")] (by decide)
